import Mathlib

/-!
Verification development for the yt-dlp API server (`src/app/main.py`,
`src/app/config.py`).  The Python source is shallowly embedded: the
in-memory job record store (`_jobs` dict guarded by `_jobs_lock`) becomes
an association list with functional update, timestamps become naturals,
exceptions become `Except` values, and the control flow of
`_perform_download` is additionally reflected as an event trace so that
ordering properties about the admission semaphore and the cookies-file
cleanup can be stated.
-/

namespace Y2b

/-- Download response model (`DownloadResponse` in `app/main.py`).
`duration` is modelled as an optional natural number of seconds (the
engine reports a best-effort duration). -/
structure DownloadResponse where
  success : Bool
  filename : String
  file_size : Nat
  duration : Option Nat
  title : Option String
  quality : Option String
  blob_uploaded : Option Bool
  blob_url : Option String
  blob_sas_url : Option String
  blob_error : Option String
deriving DecidableEq, Repr

/-- Values stored in a job record's dict (strings, numbers, and the
nested result object). -/
inductive Value where
  | str : String → Value
  | nat : Nat → Value
  | resp : DownloadResponse → Value
deriving DecidableEq, Repr

/-- A job record: a Python dict, embedded as an association list keyed by
field name.  Lookup returns the first binding; update replaces the first
binding in place (observably equivalent to dict semantics). -/
abbrev JobRec := List (String × Value)

/-- The job record store `_jobs`: job id → record. -/
abbrev Jobs := List (String × JobRec)

/-- Dict read: first binding for the key, if any. -/
def dictGet (r : JobRec) (k : String) : Option Value :=
  match r with
  | [] => none
  | (k', v) :: rest => if k' = k then some v else dictGet rest k

/-- Dict write: replace the first binding in place, or append. -/
def dictSet (r : JobRec) (k : String) (v : Value) : JobRec :=
  match r with
  | [] => [(k, v)]
  | (k', v') :: rest => if k' = k then (k', v) :: rest else (k', v') :: dictSet rest k v

/-- Python `rec.update(fields)`: write each field in order. -/
def dictUpdate (r : JobRec) (fs : List (String × Value)) : JobRec :=
  fs.foldl (fun r kv => dictSet r kv.1 kv.2) r

/-- Store read (`_jobs.get(job_id)`). -/
def jget (jobs : Jobs) (id : String) : Option JobRec :=
  match jobs with
  | [] => none
  | (id', r) :: rest => if id' = id then some r else jget rest id

/-- Store write (`_jobs[job_id] = rec`). -/
def jset (jobs : Jobs) (id : String) (r : JobRec) : Jobs :=
  match jobs with
  | [] => [(id, r)]
  | (id', r') :: rest => if id' = id then (id', r) :: rest else (id', r') :: jset rest id r

/-- The fresh record inserted by `_create_job_record` (status `pending`,
both timestamps set to the current time, payload captured). -/
def freshJobRec (job_id : String) (payload : Value) (now : Nat) : JobRec :=
  [("id", .str job_id), ("status", .str "pending"),
   ("created_at", .nat now), ("updated_at", .nat now), ("payload", payload)]

/-- `_create_job_record(job_id, payload)` (`app/main.py` lines 70-78):
unconditionally assigns `_jobs[job_id]` a fresh pending record. -/
def _create_job_record (jobs : Jobs) (job_id : String) (payload : Value) (now : Nat) : Jobs :=
  jset jobs job_id (freshJobRec job_id payload now)

/-- `_update_job(job_id, **fields)` (`app/main.py` lines 81-87): no-op when
the id is unknown; otherwise merge the fields and refresh `updated_at`. -/
def _update_job (jobs : Jobs) (job_id : String) (fields : List (String × Value)) (now : Nat) : Jobs :=
  match jget jobs job_id with
  | none => jobs
  | some rec => jset jobs job_id (dictSet (dictUpdate rec fields) "updated_at" (.nat now))

/-- Status field of a job's record. -/
def statusOf (jobs : Jobs) (id : String) : Option Value :=
  (jget jobs id).bind (fun r => dictGet r "status")

/-- Last binding of a key in a field list (the value `dict.update` leaves
behind when a key occurs several times). -/
def lookupLast (fs : List (String × Value)) (k : String) : Option Value :=
  match fs with
  | [] => none
  | kv :: rest =>
    match lookupLast rest k with
    | some v => some v
    | none => if kv.1 = k then some kv.2 else none

/-- Fields written by `_job_worker` when it dequeues a job
(`_update_job(job_id, status="running", worker=worker_index)`). -/
def runningFields (w : Nat) : List (String × Value) :=
  [("status", .str "running"), ("worker", .nat w)]

/-- One unit of work taken from the queue, together with the outcome of the
offloaded `_perform_download` call (an uncaught Python exception becomes
`Except.error` carrying `str(e)`) and the clock values at the two updates. -/
structure WorkerItem where
  job_id : String
  workerIndex : Nat
  outcome : Except String DownloadResponse
  t_run : Nat
  t_done : Nat
deriving Repr

/-- Body of the `while True` loop of `_job_worker` (`app/main.py` lines
92-108) for one dequeued job: mark `running`, run the fetch, then mark
`completed` with the result or catch the exception and mark `error` with
its message. -/
def _job_worker_step (jobs : Jobs) (it : WorkerItem) : Jobs :=
  let jobs1 := _update_job jobs it.job_id (runningFields it.workerIndex) it.t_run
  match it.outcome with
  | .ok resp => _update_job jobs1 it.job_id
      [("status", .str "completed"), ("result", .resp resp)] it.t_done
  | .error e => _update_job jobs1 it.job_id
      [("status", .str "error"), ("error", .str e)] it.t_done

/-- The worker loop over a finite schedule of dequeued items: every item is
processed in order, regardless of earlier failures. -/
def _job_worker_run (jobs : Jobs) (items : List WorkerItem) : Jobs :=
  items.foldl _job_worker_step jobs

/-- Error field of a job's record. -/
def errorOf (jobs : Jobs) (id : String) : Option Value :=
  (jget jobs id).bind (fun r => dictGet r "error")

/-- Python truthiness of an optional string (`None` and `""` are falsy). -/
def strTruthy : Option String → Bool
  | none => false
  | some s => !s.data.isEmpty

/-- Strip characters satisfying `p` from both ends of a list. -/
def stripCharsList (cs : List Char) (p : Char → Bool) : List Char :=
  ((cs.dropWhile p).reverse.dropWhile p).reverse

/-- ASCII whitespace recognised by Python's `str.strip()` / `int()`. -/
def isPyWs (c : Char) : Bool :=
  c = ' ' || c = '\t' || c = '\n' || c = '\r' || c = '\x0b' || c = '\x0c'

/-- Python `str.strip()` (whitespace, both ends). -/
def pyStripWs (s : String) : String :=
  String.mk (stripCharsList s.data isPyWs)

/-- The configuration fields of `app/config.py` consumed by the upload
stage and the cleanup sweeper.  Optional strings model env variables that
may be unset; fields that only feed the opaque Azure SDK calls
(container name, SAS permissions/expiry) are absorbed into `AzureEnv`. -/
structure Settings where
  AZURE_UPLOAD_ENABLED : Bool
  AZURE_STORAGE_CONNECTION_STRING : Option String
  AZURE_BLOB_ACCOUNT_URL : Option String
  AZURE_SAS_TOKEN : Option String
  AZURE_BLOB_PREFIX : String
  AZURE_GENERATE_SAS : Bool
  AZURE_DELETE_LOCAL_AFTER_UPLOAD : Bool
  MAX_FILE_AGE_HOURS : Nat
  CLEANUP_INTERVAL_SECONDS : Nat
deriving Repr

/-- `Settings.azure_uses_connection_string` (`app/config.py`). -/
def azure_uses_connection_string (s : Settings) : Bool :=
  strTruthy s.AZURE_STORAGE_CONNECTION_STRING

/-- `Settings.azure_sas_token_clean`: `None` when unset/empty, otherwise
the token with leading question marks removed and whitespace trimmed. -/
def azure_sas_token_clean (s : Settings) : Option String :=
  match s.AZURE_SAS_TOKEN with
  | none => none
  | some t =>
    if t.data.isEmpty then none
    else some (pyStripWs (String.mk (t.data.dropWhile (· = '?'))))

/-- `Settings.azure_uses_sas` (`app/config.py`). -/
def azure_uses_sas (s : Settings) : Bool :=
  strTruthy s.AZURE_BLOB_ACCOUNT_URL && strTruthy (azure_sas_token_clean s)

/-- `Settings.azure_is_configured` (`app/config.py` lines 102-109): feature
flag on AND (connection string OR account URL + SAS token). -/
def azure_is_configured (s : Settings) : Bool :=
  s.AZURE_UPLOAD_ENABLED && (azure_uses_connection_string s || azure_uses_sas s)

/-- Environment of the opaque Azure SDK: whether the optional dependency is
importable, whether the blocking SDK calls raise, and the values the SDK
would produce. -/
structure AzureEnv where
  libInstalled : Bool
  sasHelpersInstalled : Bool
  uploadRaises : Bool
  uploadErrMsg : String
  signRaises : Bool
  urlBase : String
  sasToken : String
deriving Repr

/-- Destination object name built by `_upload_to_azure`: configured prefix
(whitespace- and slash-stripped), joined with `/` when nonempty. -/
def azureBlobName (s : Settings) (logicalName : String) : String :=
  let pfx := stripCharsList (stripCharsList ( s.AZURE_BLOB_PREFIX).data isPyWs) (fun c => c = '/')
  if pfx.isEmpty then logicalName else String.mk pfx ++ "/" ++ logicalName

/-- Result of a successful `_upload_to_azure` call: the pair
`(blob_url, sas_url)` plus whether the pre-generated-token warning about an
ignored `AZURE_GENERATE_SAS` request was logged. -/
structure UploadResult where
  blob_url : Option String
  sas_url : Option String
  warnedSasIgnored : Bool
deriving DecidableEq, Repr

/-- `_upload_to_azure` (`app/main.py` lines 515-580).  A raised Python
exception becomes `Except.error` with the exception message. -/
def _upload_to_azure (s : Settings) (env : AzureEnv) (logicalName : String) :
    Except String UploadResult :=
  if !(azure_is_configured s) then .ok ⟨none, none, false⟩
  else if !env.libInstalled then
    .error "azure-storage-blob not installed but AZURE_UPLOAD_ENABLED set"
  else
    if azure_uses_connection_string s || azure_uses_sas s then
      if env.uploadRaises then .error env.uploadErrMsg
      else
        let blob_url := env.urlBase ++ azureBlobName s logicalName
        if azure_uses_connection_string s then
          if s.AZURE_GENERATE_SAS && env.sasHelpersInstalled then
            if env.signRaises then .ok ⟨some blob_url, none, false⟩
            else .ok ⟨some blob_url, some (blob_url ++ "?" ++ env.sasToken), false⟩
          else .ok ⟨some blob_url, none, false⟩
        else
          .ok ⟨some blob_url, none, s.AZURE_GENERATE_SAS⟩
    else .error "Azure not properly configured (no connection string or SAS token)"

/-- The blob-related local variables of `_perform_download` after the
upload stage (`app/main.py` lines 471-499), plus two embedding-level
observations: whether `_upload_to_azure` was invoked at all and whether
the local artifact deletion after upload was attempted. -/
structure BlobFields where
  blob_uploaded : Bool
  blob_url : Option String
  blob_sas_url : Option String
  blob_error : Option String
  attempted : Bool
  localDeleteAttempted : Bool
  warnedSasIgnored : Bool
deriving DecidableEq, Repr

/-- The Azure upload decision matrix of `_perform_download`
(`app/main.py` lines 477-499). -/
def azureStage (s : Settings) (env : AzureEnv) (logicalName : String) : BlobFields :=
  if s.AZURE_UPLOAD_ENABLED && !(azure_is_configured s) then
    ⟨false, none, none,
     some "Azure upload enabled but missing credentials (provide AZURE_STORAGE_CONNECTION_STRING OR AZURE_BLOB_ACCOUNT_URL + AZURE_SAS_TOKEN)",
     false, false, false⟩
  else if azure_is_configured s && !env.libInstalled then
    ⟨false, none, none, some "Azure upload configured but azure-storage-blob not installed",
     false, false, false⟩
  else if azure_is_configured s then
    match _upload_to_azure s env logicalName with
    | .ok r =>
      let uploaded := strTruthy r.blob_url
      ⟨uploaded, r.blob_url, r.sas_url, none, true,
       uploaded && s.AZURE_DELETE_LOCAL_AFTER_UPLOAD, r.warnedSasIgnored⟩
    | .error e => ⟨false, none, none, some ("Azure upload failed: " ++ e), true, false, false⟩
  else ⟨false, none, none, none, false, false, false⟩

/-- The `DownloadResponse` built at the end of `_perform_download`
(`app/main.py` lines 501-512), after a successful fetch. -/
def finishDownload (s : Settings) (env : AzureEnv) (fname : String) (file_size : Nat)
    (duration : Option Nat) (title : Option String) (quality_label : String) :
    DownloadResponse :=
  let bf := azureStage s env fname
  { success := true
    filename := fname
    file_size := file_size
    duration := duration
    title := title
    quality := some quality_label
    blob_uploaded :=
      if s.AZURE_UPLOAD_ENABLED || azure_is_configured s then some bf.blob_uploaded else none
    blob_url := bf.blob_url
    blob_sas_url := bf.blob_sas_url
    blob_error := bf.blob_error }

/-- A benign Azure environment: SDK installed, no call raises. -/
def envOk : AzureEnv :=
  ⟨true, true, false, "", false, "https://acct.blob.core.windows.net/audio-files/", "sig"⟩

/-- An Azure environment whose blocking upload call raises. -/
def envRaise : AzureEnv :=
  ⟨true, true, true, "boom", false, "https://acct.blob.core.windows.net/audio-files/", "sig"⟩

/-- Settings with the upload feature flag off. -/
def settingsOff : Settings :=
  ⟨false, none, none, none, "", false, false, 6, 600⟩

/-- Settings with the flag on but no credential mode satisfiable. -/
def settingsNoCreds : Settings :=
  ⟨true, none, none, none, "", false, false, 6, 600⟩

/-- Settings in connection-string mode with dynamic signing requested. -/
def settingsConn : Settings :=
  ⟨true, some "cs", none, none, "", true, false, 6, 600⟩

/-- Settings in account-URL + pre-generated-token mode with dynamic
signing requested. -/
def settingsSas : Settings :=
  ⟨true, none, some "https://acct.blob.core.windows.net", some "?tok", "", true, false, 6, 600⟩

/-- Observable events of one `_perform_download` call, in temporal order:
cookies-file write, admission-semaphore acquire/release, the blocking
yt-dlp call, the `finally` cookies cleanup, the Azure upload attempt, the
post-upload local delete, and the call's own termination (HTTP error
raised to the caller, or response returned). -/
inductive Ev where
  | writeCookies
  | acquire
  | fetchCall
  | unlinkCookies
  | release
  | azureUpload
  | deleteLocal
  | httpRaise (code : Nat)
  | respReturn
deriving DecidableEq, Repr

/-- Occurrence count in an event trace. -/
def countEv (e : Ev) : List Ev → Nat
  | [] => 0
  | x :: xs => (if x = e then 1 else 0) + countEv e xs

/-- Boolean membership in an event trace. -/
def memB (e : Ev) : List Ev → Bool
  | [] => false
  | x :: xs => if x = e then true else memB e xs

/-- `precedesB a b tr`: the first occurrence of `a` in `tr` is followed
(strictly later) by an occurrence of `b`. -/
def precedesB (a b : Ev) : List Ev → Bool
  | [] => false
  | x :: xs => if x = a then memB b xs else precedesB a b xs

/-- Events of the Azure upload stage of `_perform_download`
(`app/main.py` lines 477-499): the upload call happens exactly when the
feature is configured and the SDK is installed; the local delete follows a
successful upload when `AZURE_DELETE_LOCAL_AFTER_UPLOAD` is set. -/
def azureStageEvents (s : Settings) (env : AzureEnv) (fname : String) : List Ev :=
  if s.AZURE_UPLOAD_ENABLED && !(azure_is_configured s) then []
  else if azure_is_configured s && !env.libInstalled then []
  else if azure_is_configured s then
    match _upload_to_azure s env fname with
    | .ok r =>
      [.azureUpload] ++
        (if strTruthy r.blob_url && s.AZURE_DELETE_LOCAL_AFTER_UPLOAD then [.deleteLocal] else [])
    | .error _ => [.azureUpload]
  else []

/-- Event trace of `_perform_download` (`app/main.py` lines 405-512).
The `async with download_semaphore` block wraps only the blocking fetch
call and the `finally` cookies cleanup; on a fetch error the
`HTTPException` propagates to the caller after the `finally` block and the
semaphore release.  `fileFound` is whether the produced audio file was
located after the fetch. -/
def performDownloadEvents (s : Settings) (env : AzureEnv)
    (hasCookies fetchOk fileFound : Bool) (fname : String) : List Ev :=
  (if hasCookies then [.writeCookies] else []) ++
  [.acquire, .fetchCall] ++
  (if hasCookies then [.unlinkCookies] else []) ++
  [.release] ++
  (if !fetchOk then [.httpRaise 500]
   else if !fileFound then [.httpRaise 500]
   else azureStageEvents s env fname ++ [.respReturn])

/-- One file listed by the cleanup sweeper: its name, last-modified time
(seconds, integral), whether it vanished between listing and the `stat`
call (`FileNotFoundError`, skipped), and whether its `unlink` raises
(logged, file not removed).  A file vanishing between `stat` and `unlink`
is covered by `missing_ok=True` and needs no extra flag. -/
structure FileEntry where
  name : String
  mtime : Int
  vanishedBeforeStat : Bool
  unlinkRaises : Bool
deriving DecidableEq, Repr

/-- `MAX_FILE_AGE_HOURS * 3600` (`app/main.py` line 176). -/
def maxAgeSeconds (s : Settings) : Int :=
  (s.MAX_FILE_AGE_HOURS : Int) * 3600

/-- One cycle of `_cleanup_loop` (`app/main.py` lines 177-197): walk the
listed files in order; skip a file whose `stat` raises `FileNotFoundError`;
delete a file whose age `now - mtime` strictly exceeds the threshold unless
its `unlink` raises.  Returns the entries actually deleted. -/
def _cleanup_cycle (now m : Int) (files : List FileEntry) : List FileEntry :=
  match files with
  | [] => []
  | f :: rest =>
    if f.vanishedBeforeStat then _cleanup_cycle now m rest
    else if now - f.mtime > m then
      (if f.unlinkRaises then _cleanup_cycle now m rest
       else f :: _cleanup_cycle now m rest)
    else _cleanup_cycle now m rest

/-- Python `str.replace("urn:", "")`: drop every (left-to-right,
non-overlapping) occurrence. -/
def removeUrn : List Char → List Char
  | [] => []
  | 'u' :: 'r' :: 'n' :: ':' :: rest => removeUrn rest
  | c :: rest => c :: removeUrn rest

/-- Python `str.replace("uuid:", "")`. -/
def removeUuid : List Char → List Char
  | [] => []
  | 'u' :: 'u' :: 'i' :: 'd' :: ':' :: rest => removeUuid rest
  | c :: rest => c :: removeUuid rest

/-- Value of an ASCII hex digit (`0-9a-fA-F`). -/
def hexDigitVal (c : Char) : Option Nat :=
  if '0' ≤ c ∧ c ≤ '9' then some (c.toNat - '0'.toNat)
  else if 'a' ≤ c ∧ c ≤ 'f' then some (c.toNat - 'a'.toNat + 10)
  else if 'A' ≤ c ∧ c ≤ 'F' then some (c.toNat - 'A'.toNat + 10)
  else none

/-- Hex digits after the first one, allowing a single underscore between
two digits (CPython numeric-literal rule used by `int(s, 16)`). -/
def hexDigitsAux (acc : Nat) : List Char → Option Nat
  | [] => some acc
  | '_' :: [] => none
  | '_' :: c :: rest =>
    match hexDigitVal c with
    | none => none
    | some d => hexDigitsAux (acc * 16 + d) rest
  | c :: rest =>
    match hexDigitVal c with
    | none => none
    | some d => hexDigitsAux (acc * 16 + d) rest

/-- Nonempty run of hex digits with single underscores, starting with a
digit. -/
def hexDigitsRun : List Char → Option Nat
  | [] => none
  | c :: rest =>
    match hexDigitVal c with
    | none => none
    | some d => hexDigitsAux d rest

/-- Python `int(s, 16)` restricted to ASCII: surrounding whitespace, one
optional sign, optional `0x`/`0X` base marker (an underscore may follow
it), then hex digits with single underscores between digits. -/
def pyIntHex (s : String) : Option Int :=
  let cs := stripCharsList s.data isPyWs
  let signed : Int × List Char :=
    match cs with
    | '-' :: r => (-1, r)
    | '+' :: r => (1, r)
    | _ => (1, cs)
  let mag : Option Nat :=
    match signed.2 with
    | '0' :: 'x' :: rest =>
      (match rest with
       | '_' :: r2 => hexDigitsRun r2
       | _ => hexDigitsRun rest)
    | '0' :: 'X' :: rest =>
      (match rest with
       | '_' :: r2 => hexDigitsRun r2
       | _ => hexDigitsRun rest)
    | r => hexDigitsRun r
  match mag with
  | none => none
  | some n => some (signed.1 * (n : Int))

/-- The hex-string branch of CPython's `uuid.UUID.__init__`: drop `urn:`
and `uuid:` substrings, strip surrounding braces, drop dashes. -/
def uuidStemProcess (stem : List Char) : List Char :=
  let s1 := removeUrn stem
  let s2 := removeUuid s1
  let s3 := stripCharsList s2 (fun c => c = '\x7b' || c = '\x7d')
  s3.filter (fun c => c ≠ '-')

/-- Whether `uuid.UUID(stem)` succeeds: the processed string has exactly 32
characters, parses under `int(_, 16)`, and the value is a 128-bit
non-negative integer. -/
def pyUUIDValid (stem : String) : Bool :=
  let p := uuidStemProcess stem.data
  if p.length = 32 then
    match pyIntHex (String.mk p) with
    | none => false
    | some n => decide (0 ≤ n) && decide (n < (2 : Int) ^ 128)
  else false

/-- `_is_valid_uuid_prefix` (`app/main.py` lines 608-614): the part of the
filename before the first dot must parse as a UUID. -/
def _is_valid_uuid_prefix (name : String) : Bool :=
  pyUUIDValid (String.mk (name.data.takeWhile (fun c => c ≠ '.')))

/-- Result of the artifact retrieval/deletion endpoints. -/
inductive FileOpResult where
  | httpError (code : Nat)
  | fileOk
  | deleted
deriving DecidableEq, Repr

/-- Whether a file of the given name exists in the artifact directory,
modelled as the list of present file names. -/
def fileExists (fs : List String) (n : String) : Bool :=
  match fs with
  | [] => false
  | x :: rest => if x = n then true else fileExists rest n

/-- Filesystem state after `unlink`: the name is no longer present. -/
def removeFile (fs : List String) (n : String) : List String :=
  match fs with
  | [] => []
  | x :: rest => if x = n then removeFile rest n else x :: removeFile rest n

/-- `GET /download/{filename}` (`app/main.py` lines 583-591): validate the
filename pattern before consulting the filesystem, then 404 when absent,
else stream the file. -/
def get_file (fs : List String) (filename : String) : FileOpResult :=
  if !( _is_valid_uuid_prefix filename) then .httpError 400
  else if !(fileExists fs filename) then .httpError 404
  else .fileOk

/-- `DELETE /download/{filename}` (`app/main.py` lines 594-605): validate,
404 when absent, else unlink (500 when the unlink raises) and return the
new directory state. -/
def delete_file (fs : List String) (filename : String) (unlinkRaises : Bool) :
    FileOpResult × List String :=
  if !( _is_valid_uuid_prefix filename) then (.httpError 400, fs)
  else if !(fileExists fs filename) then (.httpError 404, fs)
  else if unlinkRaises then (.httpError 500, fs)
  else (.deleted, removeFile fs filename)

/-- The four mutations the system ever performs on the job record store:
`_create_job_record` at enqueue time, and the three `_update_job` calls of
`_job_worker` (mark running, mark completed, mark error), each tagged with
the target job id and a timestamp. -/
inductive StoreOp where
  | create (id : String) (payload : Value) (t : Nat)
  | markRunning (id : String) (w : Nat) (t : Nat)
  | markCompleted (id : String) (resp : DownloadResponse) (t : Nat)
  | markError (id : String) (msg : String) (t : Nat)
deriving DecidableEq, Repr

/-- The job id an operation targets. -/
def StoreOp.opId : StoreOp → String
  | .create i _ _ => i
  | .markRunning i _ _ => i
  | .markCompleted i _ _ => i
  | .markError i _ _ => i

/-- Apply one store operation, exactly as the source functions do. -/
def StoreOp.apply (jobs : Jobs) : StoreOp → Jobs
  | .create i p t => _create_job_record jobs i p t
  | .markRunning i w t => _update_job jobs i (runningFields w) t
  | .markCompleted i r t =>
    _update_job jobs i [("status", .str "completed"), ("result", .resp r)] t
  | .markError i m t =>
    _update_job jobs i [("status", .str "error"), ("error", .str m)] t

/-- Apply a trace of store operations in order. -/
def applyOps (jobs : Jobs) (ops : List StoreOp) : Jobs :=
  ops.foldl StoreOp.apply jobs

/-- Effect of one operation on the record of its own target id. -/
def opEffect (o : StoreOp) (r? : Option JobRec) : Option JobRec :=
  match o with
  | .create i p t => some (freshJobRec i p t)
  | .markRunning _ w t =>
    r?.map (fun r => dictSet (dictUpdate r (runningFields w)) "updated_at" (.nat t))
  | .markCompleted _ resp t =>
    r?.map (fun r => dictSet (dictUpdate r
      [("status", .str "completed"), ("result", .resp resp)]) "updated_at" (.nat t))
  | .markError _ m t =>
    r?.map (fun r => dictSet (dictUpdate r
      [("status", .str "error"), ("error", .str m)]) "updated_at" (.nat t))

/-- Replay a list of operations against a single record. -/
def foldEffect (r? : Option JobRec) (ops : List StoreOp) : Option JobRec :=
  ops.foldl (fun r o => opEffect o r) r?

/-- Status of a record snapshot. -/
def recStatus (r? : Option JobRec) : Option Value :=
  r?.bind (fun r => dictGet r "status")

/-- Rank of a job status along the lifecycle
(absent 0, `pending` 1, `running` 2, terminal 3). -/
def statusRank : Option Value → Nat
  | some (.str "pending") => 1
  | some (.str "running") => 2
  | some (.str "completed") => 3
  | some (.str "error") => 3
  | _ => 0

/-- Whether a status value is terminal. -/
def isTerminalStatus (v : Option Value) : Bool :=
  v = some (.str "completed") || v = some (.str "error")

/-- The operations the system performs on one job id, in order: the
enqueue endpoint creates the record once (ids are fresh uuid4 hex, so no
id is created twice), then the worker that dequeues the job marks it
`running` and then exactly one terminal state.  A trace is admissible for
an id when the subsequence of operations targeting that id is a prefix of
this pattern. -/
def isLifecycleB (id : String) : List StoreOp → Bool
  | [] => true
  | [StoreOp.create i _ _] => i = id
  | [StoreOp.create i _ _, StoreOp.markRunning j _ _] => i = id && j = id
  | [StoreOp.create i _ _, StoreOp.markRunning j _ _, StoreOp.markCompleted k _ _] =>
    i = id && j = id && k = id
  | [StoreOp.create i _ _, StoreOp.markRunning j _ _, StoreOp.markError k _ _] =>
    i = id && j = id && k = id
  | _ => false

/-- A sample outcome record. -/
def sampleResp : DownloadResponse :=
  ⟨true, "f.mp3", 10, none, none, some "best", none, none, none, none⟩

/-- A sample store-operation trace interleaving two jobs. -/
def sampleOps : List StoreOp :=
  [StoreOp.create "a" (.str "p") 1, StoreOp.create "b" (.str "q") 1,
   StoreOp.markRunning "a" 1 2, StoreOp.markRunning "b" 2 2,
   StoreOp.markCompleted "a" sampleResp 3, StoreOp.markError "b" "boom" 3]

-- Basic dict/store lemmas ----------------------------------------------------

theorem dictGet_dictSet_same (r : JobRec) (k : String) (v : Value) :
    dictGet (dictSet r k v) k = some v := by
  induction r with
  | nil => simp [dictGet, dictSet]
  | cons kv rest ih =>
    by_cases h : kv.1 = k <;> simp [dictGet, dictSet, h, ih]

theorem dictGet_dictSet_ne (r : JobRec) (k k' : String) (v : Value) (h : k ≠ k') :
    dictGet (dictSet r k v) k' = dictGet r k' := by
  induction r with
  | nil => simp [dictGet, dictSet, h]
  | cons kv rest ih =>
    by_cases hk : kv.1 = k
    · simp [dictGet, dictSet, hk, h]
    · simp [dictGet, dictSet, hk, ih]

theorem dictGet_dictUpdate (r : JobRec) (fs : List (String × Value)) (k : String) :
    dictGet (dictUpdate r fs) k =
      match lookupLast fs k with
      | some v => some v
      | none => dictGet r k := by
  induction fs generalizing r with
  | nil => simp [dictUpdate, lookupLast]
  | cons kv rest ih =>
    show dictGet (dictUpdate (dictSet r kv.1 kv.2) rest) k = _
    rw [ih]
    cases hrest : lookupLast rest k with
    | some v => simp [lookupLast, hrest]
    | none =>
      by_cases hk : kv.1 = k
      · simp [lookupLast, hrest, hk, dictGet_dictSet_same]
      · simp [lookupLast, hrest, hk, dictGet_dictSet_ne _ _ _ _ hk]

theorem jget_jset_same (jobs : Jobs) (id : String) (r : JobRec) :
    jget (jset jobs id r) id = some r := by
  induction jobs with
  | nil => simp [jget, jset]
  | cons p rest ih =>
    by_cases h : p.1 = id <;> simp [jget, jset, h, ih]

theorem jget_jset_ne (jobs : Jobs) (id id' : String) (r : JobRec) (h : id ≠ id') :
    jget (jset jobs id r) id' = jget jobs id' := by
  induction jobs with
  | nil => simp [jget, jset, h]
  | cons p rest ih =>
    by_cases hp : p.1 = id
    · simp [jget, jset, hp, h]
    · simp [jget, jset, hp, ih]

theorem jget_update_some (jobs : Jobs) (id : String) (fs : List (String × Value)) (now : Nat)
    (rec : JobRec) (h : jget jobs id = some rec) :
    jget (_update_job jobs id fs now) id =
      some (dictSet (dictUpdate rec fs) "updated_at" (.nat now)) := by
  simp [_update_job, h, jget_jset_same]

theorem jget_update_ne (jobs : Jobs) (id id' : String) (fs : List (String × Value)) (now : Nat)
    (h : id ≠ id') :
    jget (_update_job jobs id fs now) id' = jget jobs id' := by
  cases hj : jget jobs id <;> simp [_update_job, hj, jget_jset_ne _ _ _ _ h]

theorem statusOf_after_update (jobs : Jobs) (id : String) (fs : List (String × Value)) (now : Nat)
    (rec : JobRec) (v : Value) (h : jget jobs id = some rec)
    (hs : lookupLast fs "status" = some v) :
    statusOf (_update_job jobs id fs now) id = some v := by
  rw [statusOf, jget_update_some jobs id fs now rec h]
  show dictGet (dictSet (dictUpdate rec fs) "updated_at" (.nat now)) "status" = some v
  rw [dictGet_dictSet_ne _ _ _ _ (by decide : ("updated_at" : String) ≠ "status"),
      dictGet_dictUpdate, hs]

theorem errorOf_after_update (jobs : Jobs) (id : String) (fs : List (String × Value)) (now : Nat)
    (rec : JobRec) (v : Value) (h : jget jobs id = some rec)
    (hs : lookupLast fs "error" = some v) :
    errorOf (_update_job jobs id fs now) id = some v := by
  rw [errorOf, jget_update_some jobs id fs now rec h]
  show dictGet (dictSet (dictUpdate rec fs) "updated_at" (.nat now)) "error" = some v
  rw [dictGet_dictSet_ne _ _ _ _ (by decide : ("updated_at" : String) ≠ "error"),
      dictGet_dictUpdate, hs]

theorem worker_step_frame (jobs : Jobs) (it : WorkerItem) (id : String)
    (h : it.job_id ≠ id) :
    jget (_job_worker_step jobs it) id = jget jobs id := by
  unfold _job_worker_step
  cases it.outcome <;>
    simp [jget_update_ne _ _ _ _ _ h]

theorem azure_configured_creds (s : Settings) (hc : azure_is_configured s = true) :
    (azure_uses_connection_string s || azure_uses_sas s) = true := by
  rw [azure_is_configured, Bool.and_eq_true] at hc
  exact hc.2

theorem azureStage_attempted (s : Settings) (env : AzureEnv) (fname : String)
    (hc : azure_is_configured s = true) (hl : env.libInstalled = true) :
    (azureStage s env fname).attempted = true := by
  simp only [azureStage, hc, hl, Bool.not_true, Bool.and_false, Bool.if_false_right,
    Bool.and_true, if_true]
  cases h : _upload_to_azure s env fname <;> simp [h]

theorem memB_iff (e : Ev) (l : List Ev) : memB e l = true ↔ e ∈ l := by
  induction l with
  | nil => simp [memB]
  | cons x xs ih =>
    by_cases h : x = e
    · subst h; simp [memB]
    · rw [memB, if_neg h, ih, List.mem_cons]
      constructor
      · exact Or.inr
      · rintro (he | he)
        · exact absurd he.symm h
        · exact he

theorem countEv_append (e : Ev) (l r : List Ev) :
    countEv e (l ++ r) = countEv e l + countEv e r := by
  induction l with
  | nil => simp [countEv]
  | cons x xs ih => simp [countEv, ih]; omega

theorem countEv_eq_zero (e : Ev) (l : List Ev) (h : e ∉ l) : countEv e l = 0 := by
  induction l with
  | nil => simp [countEv]
  | cons x xs ih =>
    have hx : x ≠ e := fun he => h (he ▸ List.mem_cons_self x xs)
    simp [countEv, hx]
    exact ih (fun he => h (List.mem_cons_of_mem x he))

theorem azureStageEvents_sub (s : Settings) (env : AzureEnv) (fname : String) :
    ∀ e ∈ azureStageEvents s env fname, e = Ev.azureUpload ∨ e = Ev.deleteLocal := by
  intro e he
  unfold azureStageEvents at he
  repeat' split at he
  all_goals simp_all

theorem not_mem_az_of_ne (s : Settings) (env : AzureEnv) (fname : String) (e : Ev)
    (h1 : e ≠ Ev.azureUpload) (h2 : e ≠ Ev.deleteLocal) :
    e ∉ azureStageEvents s env fname := by
  intro h
  rcases azureStageEvents_sub s env fname e h with h' | h'
  · exact h1 h'
  · exact h2 h'

theorem jget_apply (jobs : Jobs) (o : StoreOp) (id : String) :
    jget (StoreOp.apply jobs o) id =
      if StoreOp.opId o = id then opEffect o (jget jobs id) else jget jobs id := by
  cases o with
  | create i p t =>
    by_cases h : i = id
    · subst h
      simp [StoreOp.apply, StoreOp.opId, opEffect, _create_job_record, jget_jset_same]
    · simp [StoreOp.apply, StoreOp.opId, opEffect, _create_job_record, h,
        jget_jset_ne jobs i id _ h]
  | markRunning i w t =>
    by_cases h : i = id
    · subst h
      cases hj : jget jobs i with
      | none => simp [StoreOp.apply, StoreOp.opId, opEffect, _update_job, hj]
      | some rec =>
        simp [StoreOp.apply, StoreOp.opId, opEffect, _update_job, hj, jget_jset_same]
    · simp [StoreOp.apply, StoreOp.opId, h, jget_update_ne jobs i id _ _ h]
  | markCompleted i r t =>
    by_cases h : i = id
    · subst h
      cases hj : jget jobs i with
      | none => simp [StoreOp.apply, StoreOp.opId, opEffect, _update_job, hj]
      | some rec =>
        simp [StoreOp.apply, StoreOp.opId, opEffect, _update_job, hj, jget_jset_same]
    · simp [StoreOp.apply, StoreOp.opId, h, jget_update_ne jobs i id _ _ h]
  | markError i m t =>
    by_cases h : i = id
    · subst h
      cases hj : jget jobs i with
      | none => simp [StoreOp.apply, StoreOp.opId, opEffect, _update_job, hj]
      | some rec =>
        simp [StoreOp.apply, StoreOp.opId, opEffect, _update_job, hj, jget_jset_same]
    · simp [StoreOp.apply, StoreOp.opId, h, jget_update_ne jobs i id _ _ h]

theorem jget_applyOps (jobs : Jobs) (ops : List StoreOp) (id : String) :
    jget (applyOps jobs ops) id =
      foldEffect (jget jobs id) (ops.filter (fun o => StoreOp.opId o = id)) := by
  induction ops generalizing jobs with
  | nil => rfl
  | cons o rest ih =>
    show jget (applyOps (StoreOp.apply jobs o) rest) id = _
    rw [ih]
    by_cases h : StoreOp.opId o = id
    · rw [jget_apply, if_pos h]
      simp [List.filter_cons, h, foldEffect]
    · rw [jget_apply, if_neg h]
      simp [List.filter_cons, h]

theorem filter_take_prefix (p : StoreOp → Bool) (ops : List StoreOp) (k : Nat) :
    (ops.take k).filter p <+: ops.filter p :=
  ⟨(ops.drop k).filter p, by rw [← List.filter_append, List.take_append_drop]⟩

theorem dictGet_status_after (rec : JobRec) (fs : List (String × Value)) (t : Nat) (v : Value)
    (hs : lookupLast fs "status" = some v) :
    dictGet (dictSet (dictUpdate rec fs) "updated_at" (.nat t)) "status" = some v := by
  rw [dictGet_dictSet_ne _ _ _ _ (by decide), dictGet_dictUpdate, hs]

theorem lifecycle_length (id : String) (fl : List StoreOp) (hL : isLifecycleB id fl = true) :
    fl.length ≤ 3 := by
  match fl with
  | [] => simp
  | [_] => simp
  | [_, _] => simp
  | [_, _, _] => simp
  | a :: b :: c :: d :: rest =>
    exfalso
    cases a <;> cases b <;> cases c <;> simp [isLifecycleB] at hL

theorem prefix_of_singleton {α : Type} {l : List α} {a : α} (h : l <+: [a]) :
    l = [] ∨ l = [a] := by
  rcases h with ⟨t, ht⟩
  cases l with
  | nil => exact Or.inl rfl
  | cons x l1 =>
    simp only [List.cons_append, List.cons.injEq] at ht
    obtain ⟨hx, hrest⟩ := ht
    obtain ⟨h1, h2⟩ := List.append_eq_nil.mp hrest
    subst hx h1
    exact Or.inr rfl

theorem prefix_of_pair {α : Type} {l : List α} {a b : α} (h : l <+: [a, b]) :
    l = [] ∨ l = [a] ∨ l = [a, b] := by
  rcases h with ⟨t, ht⟩
  cases l with
  | nil => exact Or.inl rfl
  | cons x l1 =>
    simp only [List.cons_append, List.cons.injEq] at ht
    obtain ⟨hx, ht⟩ := ht
    subst hx
    cases l1 with
    | nil => exact Or.inr (Or.inl rfl)
    | cons y l2 =>
      simp only [List.cons_append, List.cons.injEq] at ht
      obtain ⟨hy, ht⟩ := ht
      obtain ⟨h1, h2⟩ := List.append_eq_nil.mp ht
      subst hy h1
      exact Or.inr (Or.inr rfl)

theorem prefix_of_triple {α : Type} {l : List α} {a b c : α} (h : l <+: [a, b, c]) :
    l = [] ∨ l = [a] ∨ l = [a, b] ∨ l = [a, b, c] := by
  rcases h with ⟨t, ht⟩
  cases l with
  | nil => exact Or.inl rfl
  | cons x l1 =>
    simp only [List.cons_append, List.cons.injEq] at ht
    obtain ⟨hx, ht⟩ := ht
    subst hx
    cases l1 with
    | nil => exact Or.inr (Or.inl rfl)
    | cons y l2 =>
      simp only [List.cons_append, List.cons.injEq] at ht
      obtain ⟨hy, ht⟩ := ht
      subst hy
      cases l2 with
      | nil => exact Or.inr (Or.inr (Or.inl rfl))
      | cons z l3 =>
        simp only [List.cons_append, List.cons.injEq] at ht
        obtain ⟨hz, ht⟩ := ht
        obtain ⟨h1, h2⟩ := List.append_eq_nil.mp ht
        subst hz h1
        exact Or.inr (Or.inr (Or.inr rfl))

theorem lifecycle_rank (id : String) (fl l : List StoreOp)
    (hL : isLifecycleB id fl = true) (hp : l <+: fl) :
    statusRank (recStatus (foldEffect none l)) = l.length := by
  rcases fl with _ | ⟨o1, _ | ⟨o2, _ | ⟨o3, _ | ⟨o4, rest⟩⟩⟩⟩
  · obtain rfl := List.eq_nil_of_prefix_nil hp
    rfl
  · rcases prefix_of_singleton hp with rfl | rfl
    · rfl
    · cases o1 <;> simp [isLifecycleB] at hL
      rfl
  · rcases prefix_of_pair hp with rfl | rfl | rfl
    · rfl
    · cases o1 <;> cases o2 <;> simp [isLifecycleB] at hL
      rfl
    · cases o1 <;> cases o2 <;> simp [isLifecycleB] at hL
      rfl
  · rcases prefix_of_triple hp with rfl | rfl | rfl | rfl
    · rfl
    · cases o1 <;> cases o2 <;> cases o3 <;> simp [isLifecycleB] at hL
      all_goals rfl
    · cases o1 <;> cases o2 <;> cases o3 <;> simp [isLifecycleB] at hL
      all_goals rfl
    · cases o1 <;> cases o2 <;> cases o3 <;> simp [isLifecycleB] at hL
      all_goals rfl
  · exfalso
    cases o1 <;> cases o2 <;> cases o3 <;> simp [isLifecycleB] at hL

theorem statusRank_of_terminal (v : Option Value) (h : isTerminalStatus v = true) :
    statusRank v = 3 := by
  rw [isTerminalStatus, Bool.or_eq_true, decide_eq_true_eq, decide_eq_true_eq] at h
  rcases h with rfl | rfl <;> rfl

theorem mem_cleanup_cycle (now m : Int) (files : List FileEntry) (f : FileEntry) :
    f ∈ _cleanup_cycle now m files ↔
      f ∈ files ∧ f.vanishedBeforeStat = false ∧ f.unlinkRaises = false ∧
        now - f.mtime > m := by
  induction files with
  | nil => simp [_cleanup_cycle]
  | cons g rest ih =>
    by_cases hv : g.vanishedBeforeStat = true
    · rw [_cleanup_cycle, if_pos hv, ih]
      constructor
      · rintro ⟨hf, hP⟩
        exact ⟨List.mem_cons_of_mem _ hf, hP⟩
      · rintro ⟨hf, h1, h2, h3⟩
        rcases List.mem_cons.mp hf with he | he
        · rw [he] at h1
          rw [h1] at hv
          exact absurd hv (by simp)
        · exact ⟨he, h1, h2, h3⟩
    · rw [Bool.not_eq_true] at hv
      by_cases hage : now - g.mtime > m
      · by_cases hur : g.unlinkRaises = true
        · rw [_cleanup_cycle, if_neg (by simp [hv]), if_pos hage, if_pos hur, ih]
          constructor
          · rintro ⟨hf, hP⟩
            exact ⟨List.mem_cons_of_mem _ hf, hP⟩
          · rintro ⟨hf, h1, h2, h3⟩
            rcases List.mem_cons.mp hf with he | he
            · rw [he] at h2
              rw [h2] at hur
              exact absurd hur (by simp)
            · exact ⟨he, h1, h2, h3⟩
        · rw [Bool.not_eq_true] at hur
          rw [_cleanup_cycle, if_neg (by simp [hv]), if_pos hage, if_neg (by simp [hur])]
          rw [List.mem_cons, ih, List.mem_cons]
          constructor
          · rintro (he | ⟨hf, hP⟩)
            · exact ⟨Or.inl he, by rw [he]; exact hv, by rw [he]; exact hur, by rw [he]; exact hage⟩
            · exact ⟨Or.inr hf, hP⟩
          · rintro ⟨he | hf, hP⟩
            · exact Or.inl he
            · exact Or.inr ⟨hf, hP⟩
      · rw [_cleanup_cycle, if_neg (by simp [hv]), if_neg hage, ih]
        constructor
        · rintro ⟨hf, hP⟩
          exact ⟨List.mem_cons_of_mem _ hf, hP⟩
        · rintro ⟨hf, h1, h2, h3⟩
          rcases List.mem_cons.mp hf with he | he
          · rw [he] at h3
            exact absurd h3 hage
          · exact ⟨he, h1, h2, h3⟩

theorem fileExists_removeFile_self (fs : List String) (n : String) :
    fileExists (removeFile fs n) n = false := by
  induction fs with
  | nil => rfl
  | cons x rest ih =>
    by_cases h : x = n
    · simp [removeFile, h, ih]
    · simp [removeFile, h, fileExists, ih]

-- Claim C8 -------------------------------------------------------------------

/-- C8: `_update_job` on an unknown id is a raise-free no-op; on an existing
record it merges exactly the given fields (last writer wins within the field
list), refreshes `updated_at` to the current clock, and leaves every
unmentioned field and every other job's record unchanged. -/
theorem update_job_spec (jobs : Jobs) (id : String) (fs : List (String × Value)) (now : Nat) :
    (jget jobs id = none → _update_job jobs id fs now = jobs) ∧
    (∀ rec, jget jobs id = some rec →
      ∃ rec', jget (_update_job jobs id fs now) id = some rec' ∧
        dictGet rec' "updated_at" = some (.nat now) ∧
        (∀ k, k ≠ "updated_at" →
          dictGet rec' k =
            match lookupLast fs k with
            | some v => some v
            | none => dictGet rec k) ∧
        (∀ id', id ≠ id' → jget (_update_job jobs id fs now) id' = jget jobs id')) := by
  constructor
  · intro h
    simp [_update_job, h]
  · intro rec hrec
    refine ⟨dictSet (dictUpdate rec fs) "updated_at" (.nat now), ?_, ?_, ?_, ?_⟩
    · simp [_update_job, hrec, jget_jset_same]
    · exact dictGet_dictSet_same _ _ _
    · intro k hk
      rw [dictGet_dictSet_ne _ _ _ _ (fun h => hk h.symm), dictGet_dictUpdate]
    · intro id' hid
      simp [_update_job, hrec, jget_jset_ne _ _ _ _ hid]

/-- Witness for C8: concrete evaluation of both the unknown-id no-op branch
and the merge-and-refresh branch. -/
theorem update_job_spec_witness :
    (_update_job ([] : Jobs) "nope" [] 7 = []) ∧
    (∃ rec', jget (_update_job (_create_job_record [] "j" (.str "p") 5) "j"
        [("status", .str "running")] 7) "j" = some rec' ∧
      dictGet rec' "updated_at" = some (.nat 7) ∧
      (∀ k, k ≠ "updated_at" →
        dictGet rec' k =
          match lookupLast [("status", Value.str "running")] k with
          | some v => some v
          | none => dictGet (freshJobRec "j" (.str "p") 5) k) ∧
      (∀ id', "j" ≠ id' → jget (_update_job (_create_job_record [] "j" (.str "p") 5) "j"
          [("status", .str "running")] 7) id' =
        jget (_create_job_record [] "j" (.str "p") 5) id')) :=
  ⟨(update_job_spec [] "nope" [] 7).1 rfl,
   (update_job_spec (_create_job_record [] "j" (.str "p") 5) "j"
      [("status", .str "running")] 7).2 (freshJobRec "j" (.str "p") 5) (by decide)⟩

-- Claim C1 -------------------------------------------------------------------

/-- C1 counterexample: calling `_create_job_record` a second time with an id
that already has a record is not a no-op — it resets a `completed` record
back to a fresh `pending` one, so the existing record is not left unchanged. -/
theorem create_second_call_not_noop :
    statusOf (_update_job (_create_job_record [] "j" (.str "p1") 1) "j"
        [("status", .str "completed")] 2) "j" = some (.str "completed") ∧
    jget (_create_job_record (_update_job (_create_job_record [] "j" (.str "p1") 1) "j"
          [("status", .str "completed")] 2) "j" (.str "p2") 3) "j" ≠
      jget (_update_job (_create_job_record [] "j" (.str "p1") 1) "j"
          [("status", .str "completed")] 2) "j" ∧
    statusOf (_create_job_record (_update_job (_create_job_record [] "j" (.str "p1") 1) "j"
          [("status", .str "completed")] 2) "j" (.str "p2") 3) "j" = some (.str "pending") := by
  decide

/-- C1 amended: `_create_job_record` unconditionally assigns the id a fresh
`pending` record (new payload, new timestamps), overwriting any existing
record for that id; records of other ids are untouched.  Callers must
guarantee id uniqueness. -/
theorem create_job_record_overwrites (jobs : Jobs) (id : String) (p : Value) (now : Nat) :
    jget (_create_job_record jobs id p now) id = some (freshJobRec id p now) ∧
    ∀ id', id ≠ id' → jget (_create_job_record jobs id p now) id' = jget jobs id' :=
  ⟨jget_jset_same jobs id _, fun _ h => jget_jset_ne jobs id _ _ h⟩

/-- Witness for the amended C1 at a concrete store. -/
theorem create_job_record_overwrites_witness :
    jget (_create_job_record [] "a" (.str "p") 1) "a" = some (freshJobRec "a" (.str "p") 1) ∧
    jget (_create_job_record [] "a" (.str "p") 1) "b" = none :=
  ⟨(create_job_record_overwrites [] "a" (.str "p") 1).1,
   ((create_job_record_overwrites [] "a" (.str "p") 1).2 "b" (by decide)).trans rfl⟩

-- Claim C4 -------------------------------------------------------------------

/-- C4: the worker boundary catches every exception of the fetch/upload
execution: a failing job is recorded as `error` with the exception's
message, and the worker goes on to dequeue and complete the next job —
one job's failure never terminates the loop. -/
theorem worker_catches_and_continues (jobs : Jobs) (id1 id2 : String)
    (w1 w2 t1 t2 t3 t4 : Nat) (e : String) (resp : DownloadResponse)
    (rec1 rec2 : JobRec) (hne : id1 ≠ id2)
    (h1 : jget jobs id1 = some rec1) (h2 : jget jobs id2 = some rec2) :
    statusOf (_job_worker_run jobs
      [⟨id1, w1, .error e, t1, t2⟩, ⟨id2, w2, .ok resp, t3, t4⟩]) id1 = some (.str "error") ∧
    errorOf (_job_worker_run jobs
      [⟨id1, w1, .error e, t1, t2⟩, ⟨id2, w2, .ok resp, t3, t4⟩]) id1 = some (.str e) ∧
    statusOf (_job_worker_run jobs
      [⟨id1, w1, .error e, t1, t2⟩, ⟨id2, w2, .ok resp, t3, t4⟩]) id2 = some (.str "completed") := by
  have hrun : _job_worker_run jobs [⟨id1, w1, .error e, t1, t2⟩, ⟨id2, w2, .ok resp, t3, t4⟩] =
      _job_worker_step (_job_worker_step jobs ⟨id1, w1, .error e, t1, t2⟩)
        ⟨id2, w2, .ok resp, t3, t4⟩ := rfl
  set jobs1 := _job_worker_step jobs ⟨id1, w1, .error e, t1, t2⟩ with hjobs1
  have hstep1 : jobs1 = _update_job (_update_job jobs id1 (runningFields w1) t1) id1
      [("status", .str "error"), ("error", .str e)] t2 := rfl
  have hmid : jget (_update_job jobs id1 (runningFields w1) t1) id1 =
      some (dictSet (dictUpdate rec1 (runningFields w1)) "updated_at" (.nat t1)) :=
    jget_update_some jobs id1 _ t1 rec1 h1
  have hstat1 : statusOf jobs1 id1 = some (.str "error") := by
    rw [hstep1]
    exact statusOf_after_update _ id1 _ t2 _ _ hmid (by simp [lookupLast])
  have herr1 : errorOf jobs1 id1 = some (.str e) := by
    rw [hstep1]
    refine errorOf_after_update _ id1 _ t2 _ _ hmid ?_
    show lookupLast [("status", Value.str "error"), ("error", Value.str e)] "error" = some (.str e)
    simp [lookupLast]
  have hfr2 : ∀ id', id2 ≠ id' → jget (_job_worker_step jobs1 ⟨id2, w2, .ok resp, t3, t4⟩) id' =
      jget jobs1 id' := fun id' h => worker_step_frame jobs1 _ id' h
  have h2' : jget jobs1 id2 = some rec2 := by
    rw [hjobs1, worker_step_frame jobs _ id2 hne]
    exact h2
  have hmid2 : jget (_update_job jobs1 id2 (runningFields w2) t3) id2 =
      some (dictSet (dictUpdate rec2 (runningFields w2)) "updated_at" (.nat t3)) :=
    jget_update_some jobs1 id2 _ t3 rec2 h2'
  refine ⟨?_, ?_, ?_⟩
  · rw [hrun, statusOf, hfr2 id1 (fun h => hne h.symm)]
    exact hstat1
  · rw [hrun, errorOf, hfr2 id1 (fun h => hne h.symm)]
    exact herr1
  · rw [hrun]
    show statusOf (_update_job (_update_job jobs1 id2 (runningFields w2) t3) id2
      [("status", .str "completed"), ("result", .resp resp)] t4) id2 = some (.str "completed")
    exact statusOf_after_update _ id2 _ t4 _ _ hmid2 (by simp [lookupLast])

/-- Witness for C4: a two-job schedule where the first job's fetch raises. -/
theorem worker_catches_and_continues_witness :
    statusOf (_job_worker_run (_create_job_record (_create_job_record [] "a" (.str "p") 0)
        "b" (.str "q") 0)
      [⟨"a", 1, .error "boom", 1, 2⟩,
       ⟨"b", 1, .ok ⟨true, "f.mp3", 10, none, none, some "best", none, none, none, none⟩, 3, 4⟩])
      "a" = some (.str "error") ∧
    errorOf (_job_worker_run (_create_job_record (_create_job_record [] "a" (.str "p") 0)
        "b" (.str "q") 0)
      [⟨"a", 1, .error "boom", 1, 2⟩,
       ⟨"b", 1, .ok ⟨true, "f.mp3", 10, none, none, some "best", none, none, none, none⟩, 3, 4⟩])
      "a" = some (.str "boom") ∧
    statusOf (_job_worker_run (_create_job_record (_create_job_record [] "a" (.str "p") 0)
        "b" (.str "q") 0)
      [⟨"a", 1, .error "boom", 1, 2⟩,
       ⟨"b", 1, .ok ⟨true, "f.mp3", 10, none, none, some "best", none, none, none, none⟩, 3, 4⟩])
      "b" = some (.str "completed") :=
  worker_catches_and_continues _ "a" "b" 1 1 1 2 3 4 "boom"
    ⟨true, "f.mp3", 10, none, none, some "best", none, none, none, none⟩
    (freshJobRec "a" (.str "p") 0) (freshJobRec "b" (.str "q") 0)
    (by decide) (by decide) (by decide)

-- Claim C5 -------------------------------------------------------------------

/-- C5: whenever the fetch step succeeds, the returned `DownloadResponse`
has `success = true` regardless of the upload stage; an exception raised
during the upload is caught and recorded only in `blob_error`, and the
job is not failed. -/
theorem fetch_success_independent_of_upload (s : Settings) (env : AzureEnv)
    (fname : String) (size : Nat) (dur : Option Nat) (title : Option String) (q : String) :
    (finishDownload s env fname size dur title q).success = true ∧
    (azure_is_configured s = true → env.libInstalled = true → env.uploadRaises = true →
      (finishDownload s env fname size dur title q).blob_error =
        some ("Azure upload failed: " ++ env.uploadErrMsg) ∧
      (finishDownload s env fname size dur title q).blob_uploaded = some false ∧
      (finishDownload s env fname size dur title q).blob_url = none ∧
      (finishDownload s env fname size dur title q).blob_sas_url = none) := by
  refine ⟨rfl, ?_⟩
  intro hc hl hr
  have hcreds : (azure_uses_connection_string s || azure_uses_sas s) = true :=
    azure_configured_creds s hc
  simp [finishDownload, azureStage, _upload_to_azure, hc, hl, hr, hcreds]

/-- Witness for C5 at a concrete configuration whose upload raises. -/
theorem fetch_success_independent_of_upload_witness :
    (finishDownload settingsConn envRaise "f.mp3" 10 none none "best").success = true ∧
    (finishDownload settingsConn envRaise "f.mp3" 10 none none "best").blob_error =
      some ("Azure upload failed: " ++ envRaise.uploadErrMsg) ∧
    (finishDownload settingsConn envRaise "f.mp3" 10 none none "best").blob_uploaded =
      some false :=
  ⟨(fetch_success_independent_of_upload settingsConn envRaise "f.mp3" 10 none none "best").1,
   ((fetch_success_independent_of_upload settingsConn envRaise "f.mp3" 10 none none "best").2
      (by decide) (by decide) (by decide)).1,
   ((fetch_success_independent_of_upload settingsConn envRaise "f.mp3" 10 none none "best").2
      (by decide) (by decide) (by decide)).2.1⟩

-- Claim C6 -------------------------------------------------------------------

/-- C6: the upload stage follows the enumerated decision matrix: flag off →
no blob fields populated and no attempt; flag on without a satisfiable
credential mode → configuration error and no attempt; connection-string
mode → upload attempted, signed URL minted when dynamic signing was
requested; account-URL + pre-generated-token mode with signing requested →
upload attempted, the request ignored with a warning, no signed URL. -/
theorem upload_decision_matrix (s : Settings) (env : AzureEnv) (fname : String)
    (size : Nat) (dur : Option Nat) (title : Option String) (q : String) :
    (s.AZURE_UPLOAD_ENABLED = false →
      (finishDownload s env fname size dur title q).blob_uploaded = none ∧
      (finishDownload s env fname size dur title q).blob_url = none ∧
      (finishDownload s env fname size dur title q).blob_sas_url = none ∧
      (finishDownload s env fname size dur title q).blob_error = none ∧
      (azureStage s env fname).attempted = false) ∧
    (s.AZURE_UPLOAD_ENABLED = true → azure_uses_connection_string s = false →
     azure_uses_sas s = false →
      (azureStage s env fname).attempted = false ∧
      (azureStage s env fname).blob_error =
        some "Azure upload enabled but missing credentials (provide AZURE_STORAGE_CONNECTION_STRING OR AZURE_BLOB_ACCOUNT_URL + AZURE_SAS_TOKEN)" ∧
      (finishDownload s env fname size dur title q).blob_uploaded = some false ∧
      (finishDownload s env fname size dur title q).blob_url = none ∧
      (finishDownload s env fname size dur title q).blob_sas_url = none) ∧
    (s.AZURE_UPLOAD_ENABLED = true → azure_uses_connection_string s = true →
     env.libInstalled = true → env.uploadRaises = false →
      (azureStage s env fname).attempted = true ∧
      (s.AZURE_GENERATE_SAS = true → env.sasHelpersInstalled = true → env.signRaises = false →
        (azureStage s env fname).blob_sas_url =
          some (env.urlBase ++ azureBlobName s fname ++ "?" ++ env.sasToken))) ∧
    (s.AZURE_UPLOAD_ENABLED = true → azure_uses_connection_string s = false →
     azure_uses_sas s = true → s.AZURE_GENERATE_SAS = true →
     env.libInstalled = true → env.uploadRaises = false →
      (azureStage s env fname).attempted = true ∧
      (azureStage s env fname).warnedSasIgnored = true ∧
      (azureStage s env fname).blob_sas_url = none) := by
  refine ⟨?_, ?_, ?_, ?_⟩
  · intro hoff
    have hconf : azure_is_configured s = false := by
      simp [azure_is_configured, hoff]
    simp [finishDownload, azureStage, hoff, hconf]
  · intro hon hcs hsas
    have hconf : azure_is_configured s = false := by
      simp [azure_is_configured, hcs, hsas]
    simp [finishDownload, azureStage, hon, hconf]
  · intro hon hcs hl hnr
    have hconf : azure_is_configured s = true := by
      simp [azure_is_configured, hon, hcs]
    refine ⟨azureStage_attempted s env fname hconf hl, ?_⟩
    · intro hg hh hsr
      simp [azureStage, _upload_to_azure, hon, hconf, hcs, hl, hnr, hg, hh, hsr]
  · intro hon hcs hsas hg hl hnr
    have hconf : azure_is_configured s = true := by
      simp [azure_is_configured, hon, hsas]
    simp [azureStage, _upload_to_azure, hon, hconf, hcs, hsas, hl, hnr, hg]

/-- Witness for C6: all four rows of the matrix evaluated at concrete
configurations. -/
theorem upload_decision_matrix_witness :
    (finishDownload settingsOff envOk "f.mp3" 10 none none "best").blob_uploaded = none ∧
    (azureStage settingsNoCreds envOk "f.mp3").blob_error =
      some "Azure upload enabled but missing credentials (provide AZURE_STORAGE_CONNECTION_STRING OR AZURE_BLOB_ACCOUNT_URL + AZURE_SAS_TOKEN)" ∧
    (azureStage settingsNoCreds envOk "f.mp3").attempted = false ∧
    (azureStage settingsConn envOk "f.mp3").attempted = true ∧
    (azureStage settingsConn envOk "f.mp3").blob_sas_url =
      some "https://acct.blob.core.windows.net/audio-files/f.mp3?sig" ∧
    (azureStage settingsSas envOk "f.mp3").attempted = true ∧
    (azureStage settingsSas envOk "f.mp3").warnedSasIgnored = true ∧
    (azureStage settingsSas envOk "f.mp3").blob_sas_url = none :=
  ⟨((upload_decision_matrix settingsOff envOk "f.mp3" 10 none none "best").1 (by decide)).1,
   ((upload_decision_matrix settingsNoCreds envOk "f.mp3" 10 none none "best").2.1
      (by decide) (by decide) (by decide)).2.1,
   ((upload_decision_matrix settingsNoCreds envOk "f.mp3" 10 none none "best").2.1
      (by decide) (by decide) (by decide)).1,
   ((upload_decision_matrix settingsConn envOk "f.mp3" 10 none none "best").2.2.1
      (by decide) (by decide) (by decide) (by decide)).1,
   (((upload_decision_matrix settingsConn envOk "f.mp3" 10 none none "best").2.2.1
      (by decide) (by decide) (by decide) (by decide)).2
      (by decide) (by decide) (by decide)).trans (by decide),
   ((upload_decision_matrix settingsSas envOk "f.mp3" 10 none none "best").2.2.2
      (by decide) (by decide) (by decide) (by decide) (by decide) (by decide)).1,
   ((upload_decision_matrix settingsSas envOk "f.mp3" 10 none none "best").2.2.2
      (by decide) (by decide) (by decide) (by decide) (by decide) (by decide)).2.1,
   ((upload_decision_matrix settingsSas envOk "f.mp3" 10 none none "best").2.2.2
      (by decide) (by decide) (by decide) (by decide) (by decide) (by decide)).2.2⟩

-- Claim C2 -------------------------------------------------------------------

/-- C2 counterexample: at a concrete configuration with upload enabled and
configured, the upload event occurs strictly after the semaphore release
event and never before it — the upload stage runs without the
admission-gate slot held, so the slot is not held for fetch plus upload. -/
theorem upload_runs_after_release :
    Ev.azureUpload ∈ performDownloadEvents settingsConn envOk false true true "f.mp3" ∧
    precedesB Ev.release Ev.azureUpload
      (performDownloadEvents settingsConn envOk false true true "f.mp3") = true ∧
    precedesB Ev.azureUpload Ev.release
      (performDownloadEvents settingsConn envOk false true true "f.mp3") = false := by
  decide

/-- C2 amended: on the synchronous path one admission-gate slot is acquired
before the fetch engine is invoked and released unconditionally exactly
once, on the success path and on every failure path, as soon as the fetch
(plus the cookies cleanup) finishes; the optional upload stage runs after
the slot has been released, outside the gate. -/
theorem semaphore_scope (s : Settings) (env : AzureEnv)
    (hasCookies fetchOk fileFound : Bool) (fname : String) :
    countEv Ev.acquire (performDownloadEvents s env hasCookies fetchOk fileFound fname) = 1 ∧
    countEv Ev.release (performDownloadEvents s env hasCookies fetchOk fileFound fname) = 1 ∧
    precedesB Ev.acquire Ev.fetchCall
      (performDownloadEvents s env hasCookies fetchOk fileFound fname) = true ∧
    precedesB Ev.fetchCall Ev.release
      (performDownloadEvents s env hasCookies fetchOk fileFound fname) = true ∧
    (Ev.azureUpload ∈ performDownloadEvents s env hasCookies fetchOk fileFound fname →
      precedesB Ev.release Ev.azureUpload
        (performDownloadEvents s env hasCookies fetchOk fileFound fname) = true) := by
  cases hasCookies <;> cases fetchOk <;> cases fileFound
  case false.true.true =>
    have htr : performDownloadEvents s env false true true fname =
        Ev.acquire :: Ev.fetchCall :: Ev.release ::
          (azureStageEvents s env fname ++ [Ev.respReturn]) := by
      simp [performDownloadEvents]
    refine ⟨?_, ?_, ?_, ?_, ?_⟩
    · rw [htr]
      simp [countEv, countEv_append,
        countEv_eq_zero Ev.acquire _ (not_mem_az_of_ne s env fname Ev.acquire
          (by decide) (by decide))]
    · rw [htr]
      simp [countEv, countEv_append,
        countEv_eq_zero Ev.release _ (not_mem_az_of_ne s env fname Ev.release
          (by decide) (by decide))]
    · rw [htr]; simp [precedesB, memB]
    · rw [htr]; simp [precedesB, memB]
    · intro h
      rw [htr] at h ⊢
      simp only [List.mem_cons, List.mem_append, List.mem_singleton] at h
      simp only [precedesB, memB_iff, if_neg (by decide : Ev.acquire ≠ Ev.release),
        if_neg (by decide : Ev.fetchCall ≠ Ev.release),
        if_pos (rfl : Ev.release = Ev.release)]
      simp at h
      simp only [if_true, memB_iff]
      exact List.mem_append.mpr (Or.inl h)
  case true.true.true =>
    have htr : performDownloadEvents s env true true true fname =
        Ev.writeCookies :: Ev.acquire :: Ev.fetchCall :: Ev.unlinkCookies :: Ev.release ::
          (azureStageEvents s env fname ++ [Ev.respReturn]) := by
      simp [performDownloadEvents]
    refine ⟨?_, ?_, ?_, ?_, ?_⟩
    · rw [htr]
      simp [countEv, countEv_append,
        countEv_eq_zero Ev.acquire _ (not_mem_az_of_ne s env fname Ev.acquire
          (by decide) (by decide))]
    · rw [htr]
      simp [countEv, countEv_append,
        countEv_eq_zero Ev.release _ (not_mem_az_of_ne s env fname Ev.release
          (by decide) (by decide))]
    · rw [htr]; simp [precedesB, memB]
    · rw [htr]; simp [precedesB, memB]
    · intro h
      rw [htr] at h ⊢
      simp only [List.mem_cons, List.mem_append, List.mem_singleton] at h
      simp only [precedesB, memB_iff, if_neg (by decide : Ev.writeCookies ≠ Ev.release),
        if_neg (by decide : Ev.acquire ≠ Ev.release),
        if_neg (by decide : Ev.fetchCall ≠ Ev.release),
        if_neg (by decide : Ev.unlinkCookies ≠ Ev.release),
        if_pos (rfl : Ev.release = Ev.release)]
      simp at h
      simp only [if_true, memB_iff]
      exact List.mem_append.mpr (Or.inl h)
  all_goals
    refine ⟨?_, ?_, ?_, ?_, ?_⟩ <;>
      simp [performDownloadEvents, countEv, precedesB, memB]

/-- Witness for the amended C2 at a concrete configuration whose upload
stage runs. -/
theorem semaphore_scope_witness :
    precedesB Ev.release Ev.azureUpload
      (performDownloadEvents settingsConn envOk true true true "f.mp3") = true ∧
    countEv Ev.release (performDownloadEvents settingsConn envOk true true true "f.mp3") = 1 :=
  ⟨(semaphore_scope settingsConn envOk true true true "f.mp3").2.2.2.2 (by decide),
   (semaphore_scope settingsConn envOk true true true "f.mp3").2.1⟩

-- Claim C10 ------------------------------------------------------------------

/-- C10: when a cookies blob is supplied, the temporary cookies file is
removed exactly once, in the `finally` step right after the fetch engine
call, on the success path and on every failure path, before the operation
returns a response or raises to its caller. -/
theorem cookies_removed_in_finally (s : Settings) (env : AzureEnv)
    (fetchOk fileFound : Bool) (fname : String) :
    countEv Ev.unlinkCookies (performDownloadEvents s env true fetchOk fileFound fname) = 1 ∧
    precedesB Ev.fetchCall Ev.unlinkCookies
      (performDownloadEvents s env true fetchOk fileFound fname) = true ∧
    (∀ c, Ev.httpRaise c ∈ performDownloadEvents s env true fetchOk fileFound fname →
      precedesB Ev.unlinkCookies (Ev.httpRaise c)
        (performDownloadEvents s env true fetchOk fileFound fname) = true) ∧
    (Ev.respReturn ∈ performDownloadEvents s env true fetchOk fileFound fname →
      precedesB Ev.unlinkCookies Ev.respReturn
        (performDownloadEvents s env true fetchOk fileFound fname) = true) := by
  cases fetchOk <;> cases fileFound
  case true.true =>
    have htr : performDownloadEvents s env true true true fname =
        Ev.writeCookies :: Ev.acquire :: Ev.fetchCall :: Ev.unlinkCookies :: Ev.release ::
          (azureStageEvents s env fname ++ [Ev.respReturn]) := by
      simp [performDownloadEvents]
    refine ⟨?_, ?_, ?_, ?_⟩
    · rw [htr]
      simp [countEv, countEv_append,
        countEv_eq_zero Ev.unlinkCookies _ (not_mem_az_of_ne s env fname Ev.unlinkCookies
          (by decide) (by decide))]
    · rw [htr]; simp [precedesB, memB]
    · intro c h
      exfalso
      rw [htr] at h
      simp only [List.mem_cons, List.mem_append, List.mem_singleton] at h
      simp at h
      rcases azureStageEvents_sub s env fname _ h with h' | h'
      · exact Ev.noConfusion h'
      · exact Ev.noConfusion h'
    · intro h
      rw [htr]
      simp [precedesB, memB, memB_iff, List.mem_append]
  all_goals
    refine ⟨by simp [performDownloadEvents, countEv],
      by simp [performDownloadEvents, precedesB, memB], ?_, ?_⟩
    · intro c h
      simp [performDownloadEvents] at h
      subst h
      simp [performDownloadEvents, precedesB, memB]
    · intro h
      simp [performDownloadEvents] at h

/-- Witness for C10: a request with cookies whose fetch fails. -/
theorem cookies_removed_in_finally_witness :
    precedesB Ev.fetchCall Ev.unlinkCookies
      (performDownloadEvents settingsOff envOk true false false "f.mp3") = true ∧
    precedesB Ev.unlinkCookies (Ev.httpRaise 500)
      (performDownloadEvents settingsOff envOk true false false "f.mp3") = true :=
  ⟨(cookies_removed_in_finally settingsOff envOk false false "f.mp3").2.1,
   (cookies_removed_in_finally settingsOff envOk false false "f.mp3").2.2.1 500 (by decide)⟩

-- Claim C7 -------------------------------------------------------------------

/-- C7: a cleanup cycle deletes exactly the listed files whose age strictly
exceeds the retention threshold: a listed file that has not vanished and
whose unlink does not fail is deleted if and only if its age strictly
exceeds the threshold, and a file whose age is at or below the threshold
is never deleted. -/
theorem cleanup_deletes_exactly_expired (s : Settings) (now : Int)
    (files : List FileEntry) (f : FileEntry) :
    (f ∈ _cleanup_cycle now (maxAgeSeconds s) files ↔
      f ∈ files ∧ f.vanishedBeforeStat = false ∧ f.unlinkRaises = false ∧
        now - f.mtime > maxAgeSeconds s) ∧
    (now - f.mtime ≤ maxAgeSeconds s → f ∉ _cleanup_cycle now (maxAgeSeconds s) files) := by
  refine ⟨mem_cleanup_cycle now (maxAgeSeconds s) files f, ?_⟩
  intro hle hmem
  have hgt := ((mem_cleanup_cycle now (maxAgeSeconds s) files f).mp hmem).2.2.2
  omega

/-- Witness for C7: with the default 6-hour retention, a file 30000 seconds
old is swept and a file 10000 seconds old is kept. -/
theorem cleanup_deletes_exactly_expired_witness :
    (⟨"a.mp3", 0, false, false⟩ : FileEntry) ∈
      _cleanup_cycle 30000 (maxAgeSeconds settingsOff)
        [⟨"a.mp3", 0, false, false⟩, ⟨"b.mp3", 20000, false, false⟩] ∧
    (⟨"b.mp3", 20000, false, false⟩ : FileEntry) ∉
      _cleanup_cycle 30000 (maxAgeSeconds settingsOff)
        [⟨"a.mp3", 0, false, false⟩, ⟨"b.mp3", 20000, false, false⟩] :=
  ⟨(cleanup_deletes_exactly_expired settingsOff 30000
      [⟨"a.mp3", 0, false, false⟩, ⟨"b.mp3", 20000, false, false⟩]
      ⟨"a.mp3", 0, false, false⟩).1.mpr (by decide),
   (cleanup_deletes_exactly_expired settingsOff 30000
      [⟨"a.mp3", 0, false, false⟩, ⟨"b.mp3", 20000, false, false⟩]
      ⟨"b.mp3", 20000, false, false⟩).2 (by decide)⟩

-- Claim C9 -------------------------------------------------------------------

/-- C9: for the artifact retrieval and deletion endpoints, a filename whose
part before the first dot does not parse as a UUID is rejected with 400
regardless of the filesystem state, which is left untouched; a valid
filename naming no existing artifact yields 404; a valid, existing
artifact is deleted exactly once, after which the same DELETE yields 404. -/
theorem filename_validation_spec (fs : List String) (name : String) (u : Bool) :
    ( _is_valid_uuid_prefix name = false →
      get_file fs name = .httpError 400 ∧ delete_file fs name u = (.httpError 400, fs)) ∧
    ( _is_valid_uuid_prefix name = true → fileExists fs name = false →
      get_file fs name = .httpError 404 ∧ delete_file fs name u = (.httpError 404, fs)) ∧
    ( _is_valid_uuid_prefix name = true → fileExists fs name = true →
      get_file fs name = .fileOk ∧
      delete_file fs name false = (.deleted, removeFile fs name) ∧
      fileExists (removeFile fs name) name = false ∧
      delete_file (removeFile fs name) name u =
        (.httpError 404, removeFile fs name)) := by
  refine ⟨?_, ?_, ?_⟩
  · intro h
    exact ⟨by simp [get_file, h], by simp [delete_file, h]⟩
  · intro h1 h2
    exact ⟨by simp [get_file, h1, h2], by simp [delete_file, h1, h2]⟩
  · intro h1 h2
    refine ⟨by simp [get_file, h1, h2], by simp [delete_file, h1, h2],
      fileExists_removeFile_self fs name, ?_⟩
    simp [delete_file, h1, fileExists_removeFile_self fs name]

set_option maxRecDepth 40000 in
/-- Witness for C9 at a concrete UUID-named artifact and a concrete
invalid name. -/
theorem filename_validation_spec_witness :
    get_file ["123e4567-e89b-12d3-a456-426614174000.mp3"] "nope.mp3" = .httpError 400 ∧
    delete_file ["123e4567-e89b-12d3-a456-426614174000.mp3"] "nope.mp3" false =
      (.httpError 400, ["123e4567-e89b-12d3-a456-426614174000.mp3"]) ∧
    get_file [] "123e4567-e89b-12d3-a456-426614174000.mp3" = .httpError 404 ∧
    delete_file ["123e4567-e89b-12d3-a456-426614174000.mp3"]
      "123e4567-e89b-12d3-a456-426614174000.mp3" false = (.deleted, []) ∧
    delete_file [] "123e4567-e89b-12d3-a456-426614174000.mp3" false = (.httpError 404, []) :=
  ⟨((filename_validation_spec ["123e4567-e89b-12d3-a456-426614174000.mp3"] "nope.mp3" false).1
      (by decide)).1,
   ((filename_validation_spec ["123e4567-e89b-12d3-a456-426614174000.mp3"] "nope.mp3" false).1
      (by decide)).2,
   ((filename_validation_spec [] "123e4567-e89b-12d3-a456-426614174000.mp3" false).2.1
      (by decide) (by decide)).1,
   (((filename_validation_spec ["123e4567-e89b-12d3-a456-426614174000.mp3"]
      "123e4567-e89b-12d3-a456-426614174000.mp3" false).2.2
      (by decide) (by decide)).2.1).trans (by decide),
   ((filename_validation_spec [] "123e4567-e89b-12d3-a456-426614174000.mp3" false).2.1
      (by decide) (by decide)).2⟩

-- Claim C3 -------------------------------------------------------------------

/-- C3: along any trace of store operations in which the operations
targeting a given id follow the system's lifecycle pattern (created once
at enqueue, then marked running, then at most one terminal mark — ids are
fresh uuid4 tokens, so this is every reachable trace), the job's status
rank is monotone over every pair of trace prefixes, and once the status is
terminal (`completed` or `error`) the record never changes again. -/
theorem job_status_monotone (jobs0 : Jobs) (ops : List StoreOp) (id : String)
    (h0 : jget jobs0 id = none)
    (hL : isLifecycleB id (ops.filter (fun o => StoreOp.opId o = id)) = true) :
    (∀ i j, i ≤ j →
      statusRank (statusOf (applyOps jobs0 (ops.take i)) id) ≤
        statusRank (statusOf (applyOps jobs0 (ops.take j)) id)) ∧
    (∀ i j, i ≤ j →
      isTerminalStatus (statusOf (applyOps jobs0 (ops.take i)) id) = true →
      jget (applyOps jobs0 (ops.take j)) id = jget (applyOps jobs0 (ops.take i)) id) := by
  have hrec : ∀ k, jget (applyOps jobs0 (ops.take k)) id =
      foldEffect none ((ops.take k).filter (fun o => StoreOp.opId o = id)) := by
    intro k
    rw [jget_applyOps, h0]
  have hstat : ∀ k, statusOf (applyOps jobs0 (ops.take k)) id =
      recStatus (foldEffect none ((ops.take k).filter (fun o => StoreOp.opId o = id))) := by
    intro k
    show recStatus (jget (applyOps jobs0 (ops.take k)) id) = _
    rw [hrec k]
  have hpre : ∀ k, (ops.take k).filter (fun o => StoreOp.opId o = id) <+:
      ops.filter (fun o => StoreOp.opId o = id) :=
    fun k => filter_take_prefix _ ops k
  have hrank : ∀ k, statusRank (statusOf (applyOps jobs0 (ops.take k)) id) =
      ((ops.take k).filter (fun o => StoreOp.opId o = id)).length := by
    intro k
    rw [hstat k]
    exact lifecycle_rank id _ _ hL (hpre k)
  have hmono : ∀ i j, i ≤ j →
      (ops.take i).filter (fun o => StoreOp.opId o = id) <+:
      (ops.take j).filter (fun o => StoreOp.opId o = id) := by
    intro i j hij
    have he : ops.take i = (ops.take j).take i := by
      rw [List.take_take, Nat.min_eq_left hij]
    rw [he]
    exact filter_take_prefix _ (ops.take j) i
  constructor
  · intro i j hij
    rw [hrank i, hrank j]
    exact (hmono i j hij).length_le
  · intro i j hij hterm
    have h3 : statusRank (statusOf (applyOps jobs0 (ops.take i)) id) = 3 :=
      statusRank_of_terminal _ hterm
    rw [hrank i] at h3
    have hflen : (ops.filter (fun o => StoreOp.opId o = id)).length ≤ 3 :=
      lifecycle_length id _ hL
    have hjlen := (hpre j).length_le
    have hijlen := (hmono i j hij).length_le
    have hij_eq : (ops.take i).filter (fun o => StoreOp.opId o = id) =
        (ops.take j).filter (fun o => StoreOp.opId o = id) :=
      (hmono i j hij).eq_of_length (by omega)
    rw [hrec i, hrec j, hij_eq]

/-- Witness for C3: a six-operation trace interleaving two jobs; job "a"
reaches `completed` at step 5 and its record is unchanged by step 6. -/
theorem job_status_monotone_witness :
    statusRank (statusOf (applyOps [] (sampleOps.take 2)) "a") ≤
      statusRank (statusOf (applyOps [] (sampleOps.take 6)) "a") ∧
    isTerminalStatus (statusOf (applyOps [] (sampleOps.take 5)) "a") = true ∧
    jget (applyOps [] (sampleOps.take 6)) "a" = jget (applyOps [] (sampleOps.take 5)) "a" :=
  ⟨(job_status_monotone [] sampleOps "a" (by decide) (by decide)).1 2 6 (by decide),
   by decide,
   (job_status_monotone [] sampleOps "a" (by decide) (by decide)).2 5 6
     (by decide) (by decide)⟩

end Y2b
